import Mathlib

/-!
Verification of the quota, parsing, prompt and payment-route logic of the
"Triggers and Triumphs" Flask application (src/app.py), shallowly embedded
as pure Lean functions.  The two external services (the completion API and
the payment API) are modelled as explicit oracle inputs, and the signed
session cookie is modelled as an explicit record threaded through each
handler; exceptions raised by the external clients are modelled with
`Except`.  All definitions are executable.
-/

/-- JSON values as needed to model the card payloads handled by
`parse_json_safe` (app.py lines 99-118).  Number literals and the
`\uXXXX` string escape are outside the model scope: the card schema
consists of strings, arrays and objects. -/
inductive Json where
  | str (s : String)
  | bool (b : Bool)
  | null
  | arr (elems : List Json)
  | obj (members : List (String × Json))

/-- ASCII whitespace as stripped by Python `str.strip` and skipped by the
JSON decoder (model restricted to space, tab, newline, carriage return). -/
def isWs (c : Char) : Bool :=
  c == ' ' || c == '\t' || c == '\n' || c == '\r'

/-- Drop leading whitespace characters. -/
def skipWs : List Char → List Char
  | [] => []
  | c :: cs => if isWs c then skipWs cs else c :: cs

/-- Model of Python `str.strip()` at the character-list level. -/
def trimL (cs : List Char) : List Char :=
  ((cs.dropWhile isWs).reverse.dropWhile isWs).reverse

/-- Model of the leading-fence alternative of
`re.sub(r"^(three backticks)(?:json)?|...", "", text)` in `parse_json_safe`
(app.py line 102): a leading code fence, optionally tagged `json`, is
removed once at position 0. -/
def dropFencePrefix (cs : List Char) : List Char :=
  if cs.take 7 = ['\x60', '\x60', '\x60', 'j', 's', 'o', 'n'] then cs.drop 7
  else if cs.take 3 = ['\x60', '\x60', '\x60'] then cs.drop 3
  else cs

/-- Model of the trailing-fence alternative of the same substitution: a
trailing code fence is removed at the end of the (already stripped) text. -/
def dropFenceSuffix (cs : List Char) : List Char :=
  if cs.reverse.take 3 = ['\x60', '\x60', '\x60'] then (cs.reverse.drop 3).reverse
  else cs

/-- Model of app.py lines 101-102: strip the raw text, remove a leading and
a trailing code fence, and strip again. -/
def stripFencesL (cs : List Char) : List Char :=
  trimL (dropFenceSuffix (dropFencePrefix (trimL cs)))

/-- Model of `re.search(r"\x7b.*\x7d", text, flags=re.DOTALL)` with a greedy
match (app.py line 103): the span from the first opening brace to the last
closing brace, provided the closing brace comes strictly later. -/
def extractBracesL (cs : List Char) : Option (List Char) :=
  let t1 := cs.dropWhile (fun c => !(c == '\x7b'))
  let t2 := (t1.reverse.dropWhile (fun c => !(c == '\x7d'))).reverse
  if t2.isEmpty then none else some t2

/-- Escape a single character for a JSON string literal (quote and
backslash are escaped; everything else is emitted verbatim). -/
def escChar (c : Char) : List Char :=
  if c = '"' then ['\\', '"']
  else if c = '\\' then ['\\', '\\']
  else [c]

/-- Escape a character list for a JSON string literal. -/
def escStr : List Char → List Char
  | [] => []
  | c :: cs => escChar c ++ escStr cs

/-- Canonical JSON string literal (with surrounding quotes). -/
def printStrLit (s : String) : List Char :=
  '"' :: (escStr s.data ++ ['"'])

mutual

/-- Canonical (whitespace-free) serialization of a JSON value. -/
def printJson : Json → List Char
  | Json.str s => printStrLit s
  | Json.bool true => ['t', 'r', 'u', 'e']
  | Json.bool false => ['f', 'a', 'l', 's', 'e']
  | Json.null => ['n', 'u', 'l', 'l']
  | Json.arr [] => ['[', ']']
  | Json.arr (x :: xs) => '[' :: (printJson x ++ printSepElems xs ++ [']'])
  | Json.obj [] => ['\x7b', '\x7d']
  | Json.obj ((k, v) :: ms) =>
      '\x7b' :: (printStrLit k ++ ':' :: printJson v ++ printSepMembers ms ++ ['\x7d'])

/-- Serialization of the comma-separated tail of an array. -/
def printSepElems : List Json → List Char
  | [] => []
  | x :: xs => ',' :: (printJson x ++ printSepElems xs)

/-- Serialization of the comma-separated tail of an object. -/
def printSepMembers : List (String × Json) → List Char
  | [] => []
  | (k, v) :: ms => ',' :: (printStrLit k ++ ':' :: printJson v ++ printSepMembers ms)

end

/-- Characters that can appear unescaped in a JSON string literal under the
canonical serialization: everything except control characters (the quote
and the backslash are escaped by `escChar`). -/
def goodChar (c : Char) : Bool := 32 ≤ c.toNat

/-- A string fit for the canonical serialization: no control characters. -/
def goodStr (s : String) : Bool := s.data.all goodChar

mutual

/-- A JSON value all of whose strings (keys included) are control-free. -/
def goodJson : Json → Bool
  | Json.str s => goodStr s
  | Json.bool _ => true
  | Json.null => true
  | Json.arr es => goodElems es
  | Json.obj ms => goodMembers ms

/-- Control-free strings in every element of a list of JSON values. -/
def goodElems : List Json → Bool
  | [] => true
  | x :: xs => goodJson x && goodElems xs

/-- Control-free strings in every member of a JSON object. -/
def goodMembers : List (String × Json) → Bool
  | [] => true
  | (k, v) :: ms => goodStr k && goodJson v && goodMembers ms

end

/-- Interpretation of a JSON string escape character. -/
def unescChar (c : Char) : Option Char :=
  if c = '"' then some '"'
  else if c = '\\' then some '\\'
  else if c = '/' then some '/'
  else if c = 'n' then some '\n'
  else if c = 't' then some '\t'
  else if c = 'r' then some '\r'
  else if c = 'b' then some (Char.ofNat 8)
  else if c = 'f' then some (Char.ofNat 12)
  else none

/-- Parse the body of a JSON string literal (the opening quote has already
been consumed); returns the decoded characters and the input remaining
after the closing quote.  Raw control characters are rejected, as by
`json.loads`. -/
def parseStringBody : List Char → Option (List Char × List Char)
  | [] => none
  | c :: cs =>
    if c = '"' then some ([], cs)
    else if c = '\\' then
      match cs with
      | [] => none
      | e :: cs2 =>
        match unescChar e with
        | some u =>
          match parseStringBody cs2 with
          | some (l, r) => some (u :: l, r)
          | none => none
        | none => none
    else if c.toNat < 32 then none
    else
      match parseStringBody cs with
      | some (l, r) => some (c :: l, r)
      | none => none

mutual

/-- Fuel-bounded recursive-descent parser for a JSON value, modelling
`json.loads` on the fragment generated by the card schema. -/
def parseVal : Nat → List Char → Option (Json × List Char)
  | 0, _ => none
  | fuel + 1, input =>
    match skipWs input with
    | [] => none
    | c :: cs =>
      if c = '"' then
        match parseStringBody cs with
        | some (l, rest) => some (Json.str (String.mk l), rest)
        | none => none
      else if c = '[' then
        match skipWs cs with
        | [] => none
        | d :: ds =>
          if d = ']' then some (Json.arr [], ds)
          else
            match parseElems fuel cs with
            | some (vs, r) => some (Json.arr vs, r)
            | none => none
      else if c = '\x7b' then
        match skipWs cs with
        | [] => none
        | d :: ds =>
          if d = '\x7d' then some (Json.obj [], ds)
          else
            match parseMembers fuel cs with
            | some (ms, r) => some (Json.obj ms, r)
            | none => none
      else if c = 't' then
        match cs with
        | 'r' :: 'u' :: 'e' :: r => some (Json.bool true, r)
        | _ => none
      else if c = 'f' then
        match cs with
        | 'a' :: 'l' :: 's' :: 'e' :: r => some (Json.bool false, r)
        | _ => none
      else if c = 'n' then
        match cs with
        | 'u' :: 'l' :: 'l' :: r => some (Json.null, r)
        | _ => none
      else none

/-- Parse the elements of a non-empty JSON array up to and including the
closing bracket. -/
def parseElems : Nat → List Char → Option (List Json × List Char)
  | 0, _ => none
  | fuel + 1, input =>
    match parseVal fuel input with
    | none => none
    | some (v, rest) =>
      match skipWs rest with
      | [] => none
      | c :: cs =>
        if c = ',' then
          match parseElems fuel cs with
          | some (vs, r) => some (v :: vs, r)
          | none => none
        else if c = ']' then some ([v], cs)
        else none

/-- Parse the members of a non-empty JSON object up to and including the
closing brace. -/
def parseMembers : Nat → List Char → Option (List (String × Json) × List Char)
  | 0, _ => none
  | fuel + 1, input =>
    match skipWs input with
    | [] => none
    | c :: cs =>
      if c = '"' then
        match parseStringBody cs with
        | none => none
        | some (kChars, rest) =>
          match skipWs rest with
          | [] => none
          | d :: ds =>
            if d = ':' then
              match parseVal fuel ds with
              | none => none
              | some (v, rest2) =>
                match skipWs rest2 with
                | [] => none
                | e :: es =>
                  if e = ',' then
                    match parseMembers fuel es with
                    | some (ms, r) => some ((String.mk kChars, v) :: ms, r)
                    | none => none
                  else if e = '\x7d' then some ([(String.mk kChars, v)], es)
                  else none
            else none
      else none

end

/-- Model of `json.loads` on a character list: parse one JSON value and
require only whitespace to remain. -/
def jsonLoadsL (cs : List Char) : Option Json :=
  match parseVal (cs.length + 1) cs with
  | some (v, rest) => if skipWs rest = [] then some v else none
  | none => none

/-- Key-membership test on an association list, modelling `k in dict`. -/
def containsKey (kvs : List (String × Json)) (k : String) : Bool :=
  kvs.any (fun p => p.1 == k)

/-- Model of Python `dict.setdefault`: insert the key at the end when it is
absent, otherwise leave the dictionary unchanged. -/
def setdefaultJ (kvs : List (String × Json)) (k : String) (v : Json) :
    List (String × Json) :=
  if containsKey kvs k then kvs else kvs ++ [(k, v)]

/-- The placeholder card returned when no brace span is found
(app.py lines 105-107). -/
def errCardParse : List (String × Json) :=
  [("title", Json.str "Card Error"),
   ("subtitle", Json.str "Parsing issue"),
   ("body", Json.str "We couldn\x27t parse the AI response as JSON. Try again."),
   ("category", Json.str "Trigger"),
   ("tags", Json.arr [Json.str "error"])]

/-- The placeholder card returned when the brace span fails JSON decoding
(app.py lines 116-118). -/
def errCardDecode : List (String × Json) :=
  [("title", Json.str "Card Error"),
   ("subtitle", Json.str "JSON decode failed"),
   ("body", Json.str "The response wasn\x27t valid JSON. Try again."),
   ("category", Json.str "Trigger"),
   ("tags", Json.arr [Json.str "error"])]

/-- Model of `parse_json_safe` (app.py lines 99-118): strip code fences,
extract the first-to-last brace span, decode it, and normalise the result
with `setdefault`; any failure (no span, decode failure, or a decoded value
that is not an object, which in Python raises at `setdefault` and is caught
by the surrounding `except`) yields a fixed placeholder card.  The Lean
function is total, modelling that the Python function never raises. -/
def parse_json_safe (text : String) : List (String × Json) :=
  let t := stripFencesL text.data
  match extractBracesL t with
  | none => errCardParse
  | some span =>
    match jsonLoadsL span with
    | some (Json.obj kvs) =>
      let d1 := setdefaultJ kvs "category" (Json.str "Trigger")
      let d2 := setdefaultJ d1 "tags" (Json.arr [])
      let d3 := setdefaultJ d2 "title" (Json.str "")
      let d4 := setdefaultJ d3 "subtitle" (Json.str "")
      setdefaultJ d4 "body" (Json.str "")
    | _ => errCardDecode

/-- Model of Python `str.lower()` (ASCII case folding). -/
def pyLower (s : String) : String := String.mk (s.data.map Char.toLower)

/-- Model of Python `str.strip()`. -/
def pyStrip (s : String) : String := String.mk (trimL s.data)

/-- The four card categories (app.py line 39). -/
def CATEGORIES : List String := ["Trigger", "Coping", "Healing", "Wild"]

/-- The four tone labels (app.py line 40). -/
def TONES : List String := ["Classic", "Sassy", "Spicy", "Extra Spicy"]

/-- The tone-description table `TONE_GUIDE` (app.py lines 41-46). -/
def TONE_GUIDE (t : String) : Option String :=
  if t = "Classic" then some "balanced, gently witty, broadly appealing"
  else if t = "Sassy" then some "campy, flirtatious, bold quips, playful shade"
  else if t = "Spicy" then some "edgier quips, darker humor, more bite (still kind)"
  else if t = "Extra Spicy" then
    some "max sass and innuendo; toe the PG-13 line without crossing it"
  else none

/-- Model of `TONE_GUIDE.get(tone, TONE_GUIDE["Sassy"])` (app.py line 79). -/
def tone_desc (tone : String) : String :=
  (TONE_GUIDE tone).getD ((TONE_GUIDE "Sassy").getD "")

/-- The per-request user instruction built by `call_openai`
(app.py lines 80-84). -/
def user_prompt (category theme tone : String) : String :=
  "Create one " ++ category ++ " card. Target tone: " ++ tone ++ " ("
    ++ tone_desc tone ++ ")."
    ++ (if theme ≠ "" ∧ pyStrip theme ≠ "" then " Theme: " ++ pyStrip theme ++ "." else "")
    ++ " Keep it original and on-brand. Return strict JSON only."

/-- Model of `uses_left` (app.py lines 139-149): the sentinel 9999 for Pro
sessions, otherwise `max(daily - used, 0)` where `used` is read from the
in-memory usage map at the identity key and current day. -/
def uses_left (pro : Bool) (daily : Int) (key day : String)
    (usage : String × String → Nat) : Int :=
  if pro then 9999 else max (daily - (usage (key, day) : Int)) 0

/-- Model of `mark_use` (app.py lines 151-156): a no-op for Pro sessions,
otherwise increment the usage counter at the identity key and current day. -/
def mark_use (pro : Bool) (key day : String) (usage : String × String → Nat) :
    String × String → Nat :=
  if pro then usage
  else fun p => if p = (key, day) then usage (key, day) + 1 else usage p

/-- Where a handler sends the browser. -/
inductive RouteResponse where
  | redirectUpgrade
  | redirectLogin
  | redirectHome
  | renderIndex
  deriving DecidableEq

/-- The visible outcome of a request: destination and flashed messages. -/
structure HttpResult where
  dest : RouteResponse
  flashes : List (String × String)

/-- The session cookie fields used by the handlers under verification. -/
structure Session where
  email : Option String
  pro : Bool
  pending_checkout_id : Option String
  permanent : Bool
  last_card : Option (List (String × Json))

/-- A checkout session as read back from the payment API: `payment_status`,
`mode`, the customer id (when present) and `customer_details.email`
(`none` models absent `customer_details`; an empty string models details
without a usable email, which Python folds together via `or ""`). -/
structure StripeCheckout where
  payment_status : String
  mode : Option String
  customer : Option String
  customer_details : Option String

/-- The payment-API calls made by the `/pro` handler, each of which may
raise (modelled by `Except.error`). -/
structure StripeOracle where
  retrieveCheckout : String → Except String StripeCheckout
  retrieveCustomer : String → Except String (List (String × String))
  modifyCustomer : String → List (String × String) → Except String Unit

/-- Flash-and-redirect results of the `/pro` handler (app.py lines 286-337). -/
def invalidAccessFirst : HttpResult :=
  ⟨RouteResponse.redirectUpgrade,
   [("Invalid access. Please complete checkout first.", "error")]⟩

/-- Result of the same-device guard rejecting a mismatched session id. -/
def invalidAccessDevice : HttpResult :=
  ⟨RouteResponse.redirectUpgrade,
   [("Invalid access. Please complete checkout on this device.", "error")]⟩

/-- Result of the `except` handler around the verification block. -/
def stripeFailed (e : String) : HttpResult :=
  ⟨RouteResponse.redirectUpgrade,
   [("Stripe verification failed: " ++ e, "error")]⟩

/-- Result when the checkout reports a non-paid status. -/
def paymentNotCompleted : HttpResult :=
  ⟨RouteResponse.redirectUpgrade,
   [("Payment not completed. Please try again.", "error")]⟩

/-- Result when the signed-in email differs from the checkout email. -/
def emailMismatchResult : HttpResult :=
  ⟨RouteResponse.redirectLogin,
   [("This checkout used a different email. Please sign in with that email.", "error")]⟩

/-- Result of a fully successful verification. -/
def proActive : HttpResult :=
  ⟨RouteResponse.redirectHome, [("Thanks for upgrading! Pro is active.", "success")]⟩

/-- The email-match guard of `/pro` (app.py lines 307-311). -/
def emailMismatch (s : Session) (chk : StripeCheckout) : Bool :=
  match s.email, chk.customer_details with
  | some se, some ce =>
    let cl := pyLower ce
    !(cl == "") && !(pyLower se == cl)
  | _, _ => false

/-- Model of Python dict assignment `meta[k] = v` on a copied metadata
dictionary. -/
def setMeta (meta : List (String × String)) (k v : String) :
    List (String × String) :=
  if meta.any (fun p => p.1 == k) then
    meta.map (fun p => if p.1 == k then (p.1, v) else p)
  else meta ++ [(k, v)]

/-- The lifetime-tagging step of `/pro` (app.py lines 318-323): for
one-time (`payment` mode) checkouts with a customer, fetch the customer and
write the `lifetime_pro` metadata flag; either call may raise. -/
def lifetimeTag (o : StripeOracle) (chk : StripeCheckout) : Except String Unit :=
  match chk.mode, chk.customer with
  | some m, some cid =>
    if m = "payment" then
      match o.retrieveCustomer cid with
      | Except.error e => Except.error e
      | Except.ok meta => o.modifyCustomer cid (setMeta meta "lifetime_pro" "true")
    else Except.ok ()
  | _, _ => Except.ok ()

/-- The email-remembering step of `/pro` (app.py lines 326-327). -/
def rememberEmail (s : Session) (chk : StripeCheckout) : Session :=
  match chk.customer_details with
  | some ce => if ce ≠ "" then { s with email := some (pyLower ce) } else s
  | none => s

/-- Model of the `/pro` handler (app.py lines 275-337).  Session mutations
made before an exception persist, because Flask writes the (mutated)
session cookie when the `except` branch returns its redirect response. -/
def pro_route (stripeKeySet : Bool) (sidParam : Option String)
    (o : StripeOracle) (s : Session) : Session × HttpResult :=
  match sidParam with
  | none => (s, invalidAccessFirst)
  | some sid =>
    if sid = "" ∨ stripeKeySet = false then (s, invalidAccessFirst)
    else if s.pending_checkout_id ≠ some sid then (s, invalidAccessDevice)
    else
      match o.retrieveCheckout sid with
      | Except.error e => (s, stripeFailed e)
      | Except.ok chk =>
        if chk.payment_status ≠ "paid" then (s, paymentNotCompleted)
        else if emailMismatch s chk then (s, emailMismatchResult)
        else
          let s1 : Session := { s with permanent := true, pro := true }
          match lifetimeTag o chk with
          | Except.error e => (s1, stripeFailed e)
          | Except.ok _ =>
            let s2 := rememberEmail s1 chk
            ({ s2 with pending_checkout_id := none }, proActive)

/-- The "Network Error" card built by the `/generate` handler when
`call_openai` raises (app.py lines 211-213). -/
def networkErrorCard (category e : String) : List (String × Json) :=
  [("title", Json.str "Network Error"),
   ("subtitle", Json.str ""),
   ("body", Json.str ("OpenAI request failed: " ++ e)),
   ("category", Json.str category),
   ("tags", Json.arr [Json.str "error"])]

/-- The combined state touched by the `/generate` handler. -/
structure GenOut where
  usage : String × String → Nat
  sess : Session
  http : HttpResult

/-- Model of the `/generate` handler (app.py lines 197-222).  The
completion API is an oracle delivering either the raw completion text or
an exception; on success the text is decoded by `parse_json_safe`
(mirroring `call_openai`, lines 94-97). -/
def generate_route (daily : Int) (key day : String)
    (formCategory formTone formTheme : String)
    (openai : Except String String)
    (usage : String × String → Nat) (s : Session) : GenOut :=
  if uses_left s.pro daily key day usage ≤ 0 ∧ s.pro = false then
    ⟨usage, s,
     ⟨RouteResponse.redirectUpgrade,
      [("You’ve used today’s free cards. Upgrade for unlimited.", "error")]⟩⟩
  else
    let category := if formCategory ∈ CATEGORIES then formCategory else "Trigger"
    let card :=
      match openai with
      | Except.ok text => parse_json_safe text
      | Except.error e => networkErrorCard category e
    let usage1 := mark_use s.pro key day usage
    let s1 := { s with last_card := some card }
    ⟨usage1, s1, ⟨RouteResponse.renderIndex, []⟩⟩

/-- Model of the POST branch of the `/login` handler (app.py lines 341-356).
The oracle `emailIsPro` models `stripe_email_is_pro`, which returns a
boolean and never raises (it catches all exceptions and returns `False`). -/
def login_route (formEmail : Option String) (emailIsPro : String → Bool)
    (s : Session) : Session × HttpResult :=
  let email := pyLower (pyStrip (formEmail.getD ""))
  if email = "" then
    (s, ⟨RouteResponse.redirectLogin, [("Please enter a valid email.", "error")]⟩)
  else
    let s1 := { s with permanent := true, email := some email }
    if emailIsPro email then
      ({ s1 with pro := true },
       ⟨RouteResponse.redirectHome,
        [("Welcome back! Pro recognized for this email.", "success")]⟩)
    else
      (s1,
       ⟨RouteResponse.redirectHome,
        [("Signed in. Upgrade anytime to activate Pro on all devices.", "success")]⟩)

/-- A fresh anonymous free-tier session. -/
def freeSession : Session := ⟨none, false, none, false, none⟩

/-- A free-tier session with a checkout in flight (pending id `cs_9`). -/
def sessPending : Session := ⟨none, false, some "cs_9", false, none⟩

/-- A signed-in Pro session. -/
def proSession : Session := ⟨some "a@b.c", true, none, true, none⟩

/-- The all-zero usage map. -/
def zeroUsage : String × String → Nat := fun _ => 0

/-- An oracle whose every payment-API call raises. -/
def failOracle : StripeOracle :=
  ⟨fun _ => Except.error "down", fun _ => Except.error "down",
   fun _ _ => Except.error "down"⟩

/-- An oracle that returns a paid one-time checkout but raises on the
customer calls used by the lifetime-tagging step. -/
def tagFailOracle : StripeOracle :=
  ⟨fun _ => Except.ok ⟨"paid", some "payment", some "cus_1", some "a@b.c"⟩,
   fun _ => Except.error "api down", fun _ _ => Except.error "api down"⟩

/-- A free-tier session whose pending checkout id is `cs_1`. -/
def sessC1 : Session := ⟨none, false, some "cs_1", false, none⟩

/-- A concrete well-formed card object used to instantiate the round-trip
theorem. -/
def cardKvs : List (String × Json) :=
  [("title", Json.str "A"),
   ("subtitle", Json.str "B"),
   ("body", Json.str "C"),
   ("category", Json.str "Trigger"),
   ("tags", Json.arr [Json.str "x", Json.str "y"])]

/- ------------------------------------------------------------------ -/
/- Theorems.                                                           -/
/- ------------------------------------------------------------------ -/

theorem strData_append : ∀ a b : String, (a ++ b).data = a.data ++ b.data
  | ⟨_⟩, ⟨_⟩ => rfl

theorem skipWs_cons (c : Char) (l : List Char) (h : isWs c = false) :
    skipWs (c :: l) = c :: l := by
  simp [skipWs, h]

theorem dropWhile_isWs_cons (c : Char) (l : List Char) (h : isWs c = false) :
    List.dropWhile isWs (c :: l) = c :: l := by
  simp [List.dropWhile_cons, h]

/-- C4 helper: `uses_left` unfolded on a non-pro session. -/
theorem uses_left_false (daily : Int) (key day : String)
    (usage : String × String → Nat) :
    uses_left false daily key day usage
      = max (daily - (usage (key, day) : Int)) 0 := rfl

/-- C4: `uses_left` never returns a negative number; it returns the 9999
sentinel when the session is Pro and `max(daily - used, 0)` otherwise. -/
theorem uses_left_spec (pro : Bool) (daily : Int) (key day : String)
    (usage : String × String → Nat) :
    0 ≤ uses_left pro daily key day usage
    ∧ uses_left true daily key day usage = 9999
    ∧ uses_left false daily key day usage
        = max (daily - (usage (key, day) : Int)) 0 := by
  refine ⟨?_, rfl, rfl⟩
  unfold uses_left
  split
  · norm_num
  · exact le_max_right _ _

/-- C8: `mark_use` followed by `uses_left` returns the 9999 sentinel
unchanged for Pro sessions; for free sessions it leaves a zero remaining
count at zero and otherwise decreases the remaining count by exactly 1. -/
theorem mark_use_uses_left (daily : Int) (key day : String)
    (usage : String × String → Nat) :
    uses_left true daily key day (mark_use true key day usage) = 9999
    ∧ (uses_left false daily key day usage = 0 →
        uses_left false daily key day (mark_use false key day usage) = 0)
    ∧ (0 < uses_left false daily key day usage →
        uses_left false daily key day (mark_use false key day usage)
          = uses_left false daily key day usage - 1) := by
  have hm : mark_use false key day usage (key, day) = usage (key, day) + 1 := by
    simp [mark_use]
  refine ⟨rfl, ?_, ?_⟩ <;>
  · intro h
    simp only [uses_left, if_neg (by decide : ¬ (false = true))] at h ⊢
    rw [hm] at *
    push_cast at *
    omega

theorem mark_use_uses_left_witness :
    uses_left false 5 "k" "d" (mark_use false "k" "d" zeroUsage)
      = uses_left false 5 "k" "d" zeroUsage - 1 :=
  (mark_use_uses_left 5 "k" "d" zeroUsage).2.2 (by decide)

/-- C3: a `/pro` request whose `session_id` is absent or differs from the
session's stored `pending_checkout_id` leaves the session unchanged and
redirects to `/upgrade`, whatever the payment oracle would answer. -/
theorem pro_route_rejects_mismatch (ks : Bool) (sp : Option String)
    (o : StripeOracle) (s : Session)
    (h : sp = none ∨ ∃ sid, sp = some sid ∧ s.pending_checkout_id ≠ some sid) :
    (pro_route ks sp o s).1 = s
    ∧ (pro_route ks sp o s).2.dest = RouteResponse.redirectUpgrade := by
  rcases h with h | ⟨sid, hsp, hne⟩
  · subst h; exact ⟨rfl, rfl⟩
  · subst hsp
    unfold pro_route
    dsimp only
    by_cases h1 : sid = "" ∨ ks = false
    · rw [if_pos h1]; exact ⟨rfl, rfl⟩
    · rw [if_neg h1, if_pos hne]; exact ⟨rfl, rfl⟩

theorem pro_route_rejects_mismatch_witness :
    (pro_route true (some "evil") failOracle sessPending).1 = sessPending
    ∧ (pro_route true (some "evil") failOracle sessPending).2.dest
        = RouteResponse.redirectUpgrade :=
  pro_route_rejects_mismatch true (some "evil") failOracle sessPending
    (Or.inr ⟨"evil", rfl, by decide⟩)

/-- C5: a `/generate` POST from a non-pro session with zero remaining uses
redirects to `/upgrade` with the quota flash; the result does not depend on
the completion oracle (it appears nowhere on the right-hand side), so the
completion client is never consulted, and neither the usage map nor the
session changes. -/
theorem generate_zero_quota (daily : Int) (key day fc ft fh : String)
    (o : Except String String) (usage : String × String → Nat) (s : Session)
    (hpro : s.pro = false)
    (hz : uses_left s.pro daily key day usage = 0) :
    generate_route daily key day fc ft fh o usage s
      = ⟨usage, s,
         ⟨RouteResponse.redirectUpgrade,
          [("You’ve used today’s free cards. Upgrade for unlimited.", "error")]⟩⟩ := by
  unfold generate_route
  rw [if_pos ⟨by rw [hz], hpro⟩]

theorem generate_zero_quota_witness :
    generate_route 0 "k" "d" "Trigger" "Sassy" "" (Except.error "x")
        zeroUsage freeSession
      = ⟨zeroUsage, freeSession,
         ⟨RouteResponse.redirectUpgrade,
          [("You’ve used today’s free cards. Upgrade for unlimited.", "error")]⟩⟩ :=
  generate_zero_quota 0 "k" "d" "Trigger" "Sassy" "" (Except.error "x")
    zeroUsage freeSession rfl (by decide)

/-- C2 counterexample: a non-pro request with remaining uses whose
completion call raises still increments the usage counter from 0 to 1, so
the counter is not left unchanged on completion failure. -/
theorem generate_failure_still_marks_use :
    freeSession.pro = false
    ∧ zeroUsage ("ip:1.2.3.4", "2026-01-01") = 0
    ∧ (generate_route 5 "ip:1.2.3.4" "2026-01-01" "Trigger" "Sassy" ""
        (Except.error "connection reset") zeroUsage freeSession).usage
        ("ip:1.2.3.4", "2026-01-01") = 1 := by
  exact ⟨rfl, rfl, by decide⟩

/-- C2 (amended): on every `/generate` POST that passes the quota gate
(non-pro with at least one remaining use), the usage counter for the
identity and day is incremented by exactly 1, whether the completion call
succeeds or raises. -/
theorem generate_marks_use_exactly_one (daily : Int) (key day fc ft fh : String)
    (o : Except String String) (usage : String × String → Nat) (s : Session)
    (hpro : s.pro = false)
    (hleft : 0 < uses_left s.pro daily key day usage) :
    (generate_route daily key day fc ft fh o usage s).usage (key, day)
      = usage (key, day) + 1 := by
  unfold generate_route
  rw [if_neg (fun hc => absurd hc.1 (not_le.mpr hleft))]
  show mark_use s.pro key day usage (key, day) = usage (key, day) + 1
  rw [hpro]
  simp [mark_use]

theorem generate_marks_use_exactly_one_witness :
    (generate_route 5 "k" "d" "Trigger" "Sassy" "" (Except.error "boom")
        zeroUsage freeSession).usage ("k", "d") = zeroUsage ("k", "d") + 1 :=
  generate_marks_use_exactly_one 5 "k" "d" "Trigger" "Sassy" ""
    (Except.error "boom") zeroUsage freeSession rfl (by decide)

/-- C10: a `/login` POST never clears the `pro` flag: a session that was
Pro before the request is still Pro afterwards, for every submitted email
and every answer of the payment-recognition oracle. -/
theorem login_preserves_pro (f : Option String) (oracle : String → Bool)
    (s : Session) (h : s.pro = true) :
    (login_route f oracle s).1.pro = true := by
  simp only [login_route]
  split
  · exact h
  · split
    · rfl
    · exact h

theorem login_preserves_pro_witness :
    (login_route (some "x@y.z") (fun _ => false) proSession).1.pro = true :=
  login_preserves_pro (some "x@y.z") (fun _ => false) proSession rfl

/-- C9 counterexample: the user instruction built for the unrecognized tone
`Robotic` differs from the one built for the default tone `Sassy` (the tone
label is embedded verbatim even when unrecognized). -/
theorem user_prompt_keeps_unknown_label :
    user_prompt "Trigger" "" "Robotic" ≠ user_prompt "Trigger" "" "Sassy" := by
  decide

/-- C9 (amended): for a tone outside the four fixed values, the prompt
builder falls back to the default tone description (Sassy's), but the tone
label embedded in the instruction remains the submitted string. -/
theorem user_prompt_defaults_desc (category theme tone : String)
    (h : tone ∉ TONES) :
    tone_desc tone = "campy, flirtatious, bold quips, playful shade"
    ∧ user_prompt category theme tone
      = "Create one " ++ category ++ " card. Target tone: " ++ tone ++ " ("
        ++ tone_desc "Sassy" ++ ")."
        ++ (if theme ≠ "" ∧ pyStrip theme ≠ "" then
              " Theme: " ++ pyStrip theme ++ "." else "")
        ++ " Keep it original and on-brand. Return strict JSON only." := by
  have h1 : tone ≠ "Classic" := by rintro rfl; exact h (by decide)
  have h2 : tone ≠ "Sassy" := by rintro rfl; exact h (by decide)
  have h3 : tone ≠ "Spicy" := by rintro rfl; exact h (by decide)
  have h4 : tone ≠ "Extra Spicy" := by rintro rfl; exact h (by decide)
  have hd : tone_desc tone = "campy, flirtatious, bold quips, playful shade" := by
    unfold tone_desc TONE_GUIDE
    rw [if_neg h1, if_neg h2, if_neg h3, if_neg h4]
    rfl
  have hd2 : tone_desc tone = tone_desc "Sassy" := by rw [hd]; rfl
  refine ⟨hd, ?_⟩
  unfold user_prompt
  rw [hd2]

theorem user_prompt_defaults_desc_witness :
    tone_desc "Robotic" = "campy, flirtatious, bold quips, playful shade" :=
  (user_prompt_defaults_desc "Trigger" "" "Robotic" (by decide)).1

/-- C1 counterexample: starting from a non-pro session with a matching
pending checkout, a payment-API exception raised by the customer-retrieval
call of the lifetime-tagging step (after a verified paid checkout) is
caught and flashed as a Stripe failure, yet the session keeps the `pro`
flag that was set just before the failing call — so a payment-API failure
during `/pro` does not always leave the pro flag ungranted. -/
theorem pro_route_grants_despite_api_failure :
    sessC1.pro = false
    ∧ (pro_route true (some "cs_1") tagFailOracle sessC1).2.flashes
        = [("Stripe verification failed: api down", "error")]
    ∧ (pro_route true (some "cs_1") tagFailOracle sessC1).1.pro = true := by
  exact ⟨rfl, by decide, by decide⟩

/-- C1 (amended): a payment-API failure while retrieving the checkout
session is caught, flashed, and redirects to `/upgrade` with the session
unchanged (so `pro` stays false); and whenever `/pro` turns a non-pro
session into a pro one, the checkout was successfully retrieved and
reported `paid` — failures occurring after that verified grant (in the
lifetime-tagging calls) still flash an error and redirect to `/upgrade`,
but do not revoke the already-granted flag. -/
theorem pro_route_failsafe (ks : Bool) (sp : Option String) (o : StripeOracle)
    (s : Session) :
    (∀ sid e, sp = some sid → sid ≠ "" → ks = true →
        s.pending_checkout_id = some sid →
        o.retrieveCheckout sid = Except.error e →
        pro_route ks sp o s = (s, stripeFailed e))
    ∧ (s.pro = false → (pro_route ks sp o s).1.pro = true →
        ∃ sid chk, sp = some sid ∧ o.retrieveCheckout sid = Except.ok chk
          ∧ chk.payment_status = "paid") := by
  constructor
  · rintro sid e rfl hne hks hpend hret
    unfold pro_route
    dsimp only
    rw [if_neg (by simp [hne, hks]), if_neg (by simp [hpend]), hret]
  · intro hpro hres
    cases sp with
    | none =>
      unfold pro_route at hres
      simp [hpro] at hres
    | some sid =>
      unfold pro_route at hres
      dsimp only at hres
      by_cases h1 : sid = "" ∨ ks = false
      · rw [if_pos h1] at hres
        simp [hpro] at hres
      · rw [if_neg h1] at hres
        by_cases h2 : s.pending_checkout_id ≠ some sid
        · rw [if_pos h2] at hres
          simp [hpro] at hres
        · rw [if_neg h2] at hres
          cases hret : o.retrieveCheckout sid with
          | error e =>
            rw [hret] at hres
            simp [hpro] at hres
          | ok chk =>
            by_cases h3 : chk.payment_status ≠ "paid"
            · rw [hret] at hres
              dsimp only at hres
              rw [if_pos h3] at hres
              simp [hpro] at hres
            · exact ⟨sid, chk, rfl, hret, not_not.mp h3⟩

theorem pro_route_failsafe_witness :
    pro_route true (some "cs_9") failOracle sessPending
      = (sessPending, stripeFailed "down") :=
  (pro_route_failsafe true (some "cs_9") failOracle sessPending).1 "cs_9" "down"
    rfl (by decide) rfl rfl rfl

theorem containsKey_setdefaultJ_self (l : List (String × Json)) (k : String)
    (v : Json) : containsKey (setdefaultJ l k v) k = true := by
  unfold setdefaultJ
  split
  · assumption
  · simp [containsKey, List.any_append]

theorem containsKey_setdefaultJ_mono (l : List (String × Json)) (k : String)
    (v : Json) (k2 : String) (h : containsKey l k2 = true) :
    containsKey (setdefaultJ l k v) k2 = true := by
  unfold setdefaultJ
  split
  · exact h
  · simp only [containsKey, List.any_append]
    simp only [containsKey] at h
    simp [h]

theorem setdefaultJ_of_contains (l : List (String × Json)) (k : String)
    (v : Json) (h : containsKey l k = true) : setdefaultJ l k v = l := by
  unfold setdefaultJ
  rw [if_pos h]

/-- C6: `parse_json_safe` is total (the Lean model is a function, mirroring
that the Python function catches every exception) and always returns a
value carrying all five card keys; when no brace span is found, it returns
the fixed "Card Error"/"Parsing issue" placeholder, and when the extracted
span does not decode to a JSON object it returns the fixed
"Card Error"/"JSON decode failed" placeholder — both placeholders have
title "Card Error", category "Trigger" and tags ["error"]. -/
theorem parse_json_safe_spec (text : String) :
    (containsKey (parse_json_safe text) "title" = true
     ∧ containsKey (parse_json_safe text) "subtitle" = true
     ∧ containsKey (parse_json_safe text) "body" = true
     ∧ containsKey (parse_json_safe text) "category" = true
     ∧ containsKey (parse_json_safe text) "tags" = true)
    ∧ (extractBracesL (stripFencesL text.data) = none →
        parse_json_safe text = errCardParse)
    ∧ (∀ span, extractBracesL (stripFencesL text.data) = some span →
        (∀ kvs, jsonLoadsL span ≠ some (Json.obj kvs)) →
        parse_json_safe text = errCardDecode) := by
  unfold parse_json_safe
  dsimp only
  cases hx : extractBracesL (stripFencesL text.data) with
  | none =>
    refine ⟨⟨rfl, rfl, rfl, rfl, rfl⟩, fun _ => rfl, ?_⟩
    intro span hsp _
    simp at hsp
  | some span =>
    dsimp only
    cases hj : jsonLoadsL span with
    | none =>
      refine ⟨⟨rfl, rfl, rfl, rfl, rfl⟩, ?_, fun _ _ _ => rfl⟩
      intro hnone; simp at hnone
    | some j =>
      cases j with
      | obj kvs =>
        dsimp only
        refine ⟨⟨?_, ?_, ?_, ?_, ?_⟩, ?_, ?_⟩
        · exact containsKey_setdefaultJ_mono _ _ _ _
            (containsKey_setdefaultJ_mono _ _ _ _
              (containsKey_setdefaultJ_self _ _ _))
        · exact containsKey_setdefaultJ_mono _ _ _ _
            (containsKey_setdefaultJ_self _ _ _)
        · exact containsKey_setdefaultJ_self _ _ _
        · exact containsKey_setdefaultJ_mono _ _ _ _
            (containsKey_setdefaultJ_mono _ _ _ _
              (containsKey_setdefaultJ_mono _ _ _ _
                (containsKey_setdefaultJ_mono _ _ _ _
                  (containsKey_setdefaultJ_self _ _ _))))
        · exact containsKey_setdefaultJ_mono _ _ _ _
            (containsKey_setdefaultJ_mono _ _ _ _
              (containsKey_setdefaultJ_mono _ _ _ _
                (containsKey_setdefaultJ_self _ _ _)))
        · intro hnone; simp at hnone
        · intro sp hsp hne
          cases hsp
          exact absurd hj (hne kvs)
      | str s =>
        exact ⟨⟨rfl, rfl, rfl, rfl, rfl⟩,
          fun h => absurd h (by simp), fun _ _ _ => rfl⟩
      | bool b =>
        exact ⟨⟨rfl, rfl, rfl, rfl, rfl⟩,
          fun h => absurd h (by simp), fun _ _ _ => rfl⟩
      | null =>
        exact ⟨⟨rfl, rfl, rfl, rfl, rfl⟩,
          fun h => absurd h (by simp), fun _ _ _ => rfl⟩
      | arr es =>
        exact ⟨⟨rfl, rfl, rfl, rfl, rfl⟩,
          fun h => absurd h (by simp), fun _ _ _ => rfl⟩

theorem parse_json_safe_spec_witness :
    parse_json_safe "no json here" = errCardParse
    ∧ containsKey (parse_json_safe "no json here") "title" = true :=
  ⟨(parse_json_safe_spec "no json here").2.1 (by decide),
   (parse_json_safe_spec "no json here").1.1⟩

theorem parseStringBody_quote (tl : List Char) :
    parseStringBody ('"' :: tl) = some ([], tl) := by
  rw [parseStringBody.eq_def]
  dsimp only
  rw [if_pos rfl]

theorem parseStringBody_esc2 (e u : Char) (tl : List Char) (h : unescChar e = some u) :
    parseStringBody ('\\' :: e :: tl)
      = match parseStringBody tl with
        | some (l, r) => some (u :: l, r)
        | none => none := by
  rw [parseStringBody.eq_def]
  dsimp only
  rw [if_neg (by decide : ¬ ('\\' : Char) = '"'), if_pos rfl, h]

theorem parseStringBody_raw (c : Char) (tl : List Char)
    (h1 : ¬ c = '"') (h2 : ¬ c = '\\') (h3 : ¬ c.toNat < 32) :
    parseStringBody (c :: tl)
      = match parseStringBody tl with
        | some (l, r) => some (c :: l, r)
        | none => none := by
  rw [parseStringBody.eq_def]
  dsimp only
  rw [if_neg h1, if_neg h2, if_neg h3]

theorem parseStringBody_escStr (l rest : List Char) (h : l.all goodChar = true) :
    parseStringBody (escStr l ++ '"' :: rest) = some (l, rest) := by
  induction l with
  | nil => exact parseStringBody_quote rest
  | cons c cs ih =>
    simp only [List.all_cons, Bool.and_eq_true] at h
    obtain ⟨hc, hcs⟩ := h
    have hge : ¬ c.toNat < 32 := by
      simp only [goodChar, decide_eq_true_eq] at hc
      omega
    by_cases h1 : c = '"'
    · subst h1
      have hsh : escStr ('"' :: cs) ++ '"' :: rest
          = '\\' :: '"' :: (escStr cs ++ '"' :: rest) := by
        simp [escStr, escChar]
      rw [hsh, parseStringBody_esc2 '"' '"' _ rfl, ih hcs]
    · by_cases h2 : c = '\\'
      · subst h2
        have hsh : escStr ('\\' :: cs) ++ '"' :: rest
            = '\\' :: '\\' :: (escStr cs ++ '"' :: rest) := by
          simp [escStr, escChar]
        rw [hsh, parseStringBody_esc2 '\\' '\\' _ rfl, ih hcs]
      · have hsh : escStr (c :: cs) ++ '"' :: rest
            = c :: (escStr cs ++ '"' :: rest) := by
          simp [escStr, escChar, h1, h2]
        rw [hsh, parseStringBody_raw c _ h1 h2 hge, ih hcs]

theorem printJson_shape (j : Json) :
    ∃ c t, printJson j = c :: t ∧ isWs c = false
      ∧ c ≠ ']' ∧ c ≠ '\x7d' ∧ c ≠ ',' := by
  cases j with
  | str s => exact ⟨'"', _, rfl, by decide, by decide, by decide, by decide⟩
  | bool b =>
    cases b
    · exact ⟨'f', _, rfl, by decide, by decide, by decide, by decide⟩
    · exact ⟨'t', _, rfl, by decide, by decide, by decide, by decide⟩
  | null => exact ⟨'n', _, rfl, by decide, by decide, by decide, by decide⟩
  | arr es =>
    cases es
    · exact ⟨'[', _, rfl, by decide, by decide, by decide, by decide⟩
    · exact ⟨'[', _, rfl, by decide, by decide, by decide, by decide⟩
  | obj ms =>
    cases ms with
    | nil => exact ⟨'\x7b', _, rfl, by decide, by decide, by decide, by decide⟩
    | cons p ms =>
      obtain ⟨k, v⟩ := p
      exact ⟨'\x7b', _, rfl, by decide, by decide, by decide, by decide⟩

theorem printJson_ne_nil (j : Json) : 1 ≤ (printJson j).length := by
  obtain ⟨c, t, he, -⟩ := printJson_shape j
  rw [he]
  simp
theorem parseVal_quote (fuel : Nat) (tl : List Char) :
    parseVal (fuel + 1) ('"' :: tl)
      = match parseStringBody tl with
        | some (l, rest) => some (Json.str (String.mk l), rest)
        | none => none := by
  rw [parseVal.eq_def]
  dsimp only
  rw [skipWs_cons _ _ (by decide)]
  dsimp only
  rw [if_pos rfl]

theorem parseVal_bracket (fuel : Nat) (tl : List Char) :
    parseVal (fuel + 1) ('[' :: tl)
      = match skipWs tl with
        | [] => none
        | d :: ds =>
          if d = ']' then some (Json.arr [], ds)
          else
            match parseElems fuel tl with
            | some (vs, r) => some (Json.arr vs, r)
            | none => none := by
  rw [parseVal.eq_def]
  dsimp only
  rw [skipWs_cons _ _ (by decide)]
  dsimp only
  rw [if_neg (by decide : ¬ ('[' : Char) = '"'), if_pos rfl]

theorem parseVal_brace (fuel : Nat) (tl : List Char) :
    parseVal (fuel + 1) ('\x7b' :: tl)
      = match skipWs tl with
        | [] => none
        | d :: ds =>
          if d = '\x7d' then some (Json.obj [], ds)
          else
            match parseMembers fuel tl with
            | some (ms, r) => some (Json.obj ms, r)
            | none => none := by
  rw [parseVal.eq_def]
  dsimp only
  rw [skipWs_cons _ _ (by decide)]
  dsimp only
  rw [if_neg (by decide : ¬ ('\x7b' : Char) = '"'),
    if_neg (by decide : ¬ ('\x7b' : Char) = '['), if_pos rfl]

theorem parseElems_succ (fuel : Nat) (input : List Char) :
    parseElems (fuel + 1) input
      = match parseVal fuel input with
        | none => none
        | some (v, rest) =>
          match skipWs rest with
          | [] => none
          | c :: cs =>
            if c = ',' then
              match parseElems fuel cs with
              | some (vs, r) => some (v :: vs, r)
              | none => none
            else if c = ']' then some ([v], cs)
            else none := by
  rw [parseElems.eq_def]

theorem parseMembers_succ (fuel : Nat) (input : List Char) :
    parseMembers (fuel + 1) input
      = match skipWs input with
        | [] => none
        | c :: cs =>
          if c = '"' then
            match parseStringBody cs with
            | none => none
            | some (kChars, rest) =>
              match skipWs rest with
              | [] => none
              | d :: ds =>
                if d = ':' then
                  match parseVal fuel ds with
                  | none => none
                  | some (v, rest2) =>
                    match skipWs rest2 with
                    | [] => none
                    | e :: es =>
                      if e = ',' then
                        match parseMembers fuel es with
                        | some (ms, r) => some ((String.mk kChars, v) :: ms, r)
                        | none => none
                      else if e = '\x7d' then some ([(String.mk kChars, v)], es)
                      else none
                else none
          else none := by
  rw [parseMembers.eq_def]

theorem parseVal_true (fuel : Nat) (tl : List Char) :
    parseVal (fuel + 1) ('t' :: 'r' :: 'u' :: 'e' :: tl) = some (Json.bool true, tl) := rfl

theorem parseVal_false (fuel : Nat) (tl : List Char) :
    parseVal (fuel + 1) ('f' :: 'a' :: 'l' :: 's' :: 'e' :: tl) = some (Json.bool false, tl) := rfl

theorem parseVal_null (fuel : Nat) (tl : List Char) :
    parseVal (fuel + 1) ('n' :: 'u' :: 'l' :: 'l' :: tl) = some (Json.null, tl) := rfl

theorem parse_print_aux (fuel : Nat) :
    (∀ j rest, goodJson j = true → (printJson j).length ≤ fuel →
      parseVal fuel (printJson j ++ rest) = some (j, rest))
    ∧ (∀ x xs rest, goodJson x = true → goodElems xs = true →
        (printJson x ++ printSepElems xs).length + 1 ≤ fuel →
        parseElems fuel (printJson x ++ (printSepElems xs ++ ']' :: rest))
          = some (x :: xs, rest))
    ∧ (∀ k v ms rest, goodStr k = true → goodJson v = true →
        goodMembers ms = true →
        (printStrLit k ++ ':' :: printJson v ++ printSepMembers ms).length + 1 ≤ fuel →
        parseMembers fuel
            (printStrLit k ++ ':' :: (printJson v ++ (printSepMembers ms ++ '\x7d' :: rest)))
          = some ((k, v) :: ms, rest)) := by
  induction fuel with
  | zero =>
    refine ⟨?_, ?_, ?_⟩
    · intro j rest _ hlen
      have := printJson_ne_nil j
      omega
    · intro x xs rest _ _ hlen
      omega
    · intro k v ms rest _ _ _ hlen
      omega
  | succ fuel ih =>
    obtain ⟨ihV, ihE, ihM⟩ := ih
    refine ⟨?_, ?_, ?_⟩
    · intro j rest hg hlen
      cases j with
      | str s =>
        have hsh : printJson (Json.str s) ++ rest
            = '"' :: (escStr s.data ++ '"' :: rest) := by
          simp [printJson, printStrLit]
        rw [hsh, parseVal_quote,
          parseStringBody_escStr s.data rest (by simpa [goodJson, goodStr] using hg)]
      | bool b =>
        cases b
        · have hsh : printJson (Json.bool false) ++ rest
              = 'f' :: 'a' :: 'l' :: 's' :: 'e' :: rest := by simp [printJson]
          rw [hsh, parseVal_false]
        · have hsh : printJson (Json.bool true) ++ rest
              = 't' :: 'r' :: 'u' :: 'e' :: rest := by simp [printJson]
          rw [hsh, parseVal_true]
      | null =>
        have hsh : printJson Json.null ++ rest
            = 'n' :: 'u' :: 'l' :: 'l' :: rest := by simp [printJson]
        rw [hsh, parseVal_null]
      | arr es =>
        cases es with
        | nil =>
          have hsh : printJson (Json.arr []) ++ rest = '[' :: ']' :: rest := by
            simp [printJson]
          rw [hsh, parseVal_bracket, skipWs_cons _ _ (by decide)]
          dsimp only
          rw [if_pos rfl]
        | cons x xs =>
          have hgx : goodJson x = true ∧ goodElems xs = true := by
            simpa [goodJson, goodElems, Bool.and_eq_true] using hg
          have hsh : printJson (Json.arr (x :: xs)) ++ rest
              = '[' :: (printJson x ++ (printSepElems xs ++ ']' :: rest)) := by
            simp [printJson]
          rw [hsh, parseVal_bracket]
          obtain ⟨c, t, hxe, hws, hne, -, -⟩ := printJson_shape x
          have hsk : skipWs (printJson x ++ (printSepElems xs ++ ']' :: rest))
              = c :: (t ++ (printSepElems xs ++ ']' :: rest)) := by
            rw [hxe, List.cons_append]
            exact skipWs_cons _ _ hws
          rw [hsk]
          dsimp only
          rw [if_neg hne]
          have hlen2 : (printJson x ++ printSepElems xs).length + 1 ≤ fuel := by
            simp only [printJson, List.length_cons, List.length_append,
              List.length_singleton] at hlen
            simp only [List.length_append]
            omega
          rw [ihE x xs rest hgx.1 hgx.2 hlen2]
      | obj ms =>
        cases ms with
        | nil =>
          have hsh : printJson (Json.obj []) ++ rest = '\x7b' :: '\x7d' :: rest := by
            simp [printJson]
          rw [hsh, parseVal_brace, skipWs_cons _ _ (by decide)]
          dsimp only
          rw [if_pos rfl]
        | cons p ms =>
          obtain ⟨k, v⟩ := p
          have hgm : goodStr k = true ∧ goodJson v = true ∧ goodMembers ms = true := by
            simpa [goodJson, goodMembers, Bool.and_eq_true, and_assoc] using hg
          have hsh : printJson (Json.obj ((k, v) :: ms)) ++ rest
              = '\x7b' :: (printStrLit k
                  ++ ':' :: (printJson v ++ (printSepMembers ms ++ '\x7d' :: rest))) := by
            simp [printJson]
          rw [hsh, parseVal_brace]
          have hsk : skipWs (printStrLit k
                ++ ':' :: (printJson v ++ (printSepMembers ms ++ '\x7d' :: rest)))
              = '"' :: (escStr k.data
                  ++ ('"' :: (':' :: (printJson v ++ (printSepMembers ms ++ '\x7d' :: rest))))) := by
            rw [show printStrLit k
                  ++ ':' :: (printJson v ++ (printSepMembers ms ++ '\x7d' :: rest))
                = '"' :: (escStr k.data
                  ++ ('"' :: (':' :: (printJson v ++ (printSepMembers ms ++ '\x7d' :: rest)))))
              from by simp [printStrLit]]
            exact skipWs_cons _ _ (by decide)
          rw [hsk]
          dsimp only
          rw [if_neg (by decide : ¬ ('"' : Char) = '\x7d')]
          have hlen2 : (printStrLit k ++ ':' :: printJson v ++ printSepMembers ms).length + 1
              ≤ fuel := by
            simp only [printJson, List.length_cons, List.length_append,
              List.length_singleton] at hlen
            simp only [List.length_append, List.length_cons]
            omega
          rw [ihM k v ms rest hgm.1 hgm.2.1 hgm.2.2 hlen2]
    · intro x xs rest hgx hgxs hlen
      rw [parseElems_succ]
      have hbx : (printJson x).length ≤ fuel := by
        simp only [List.length_append] at hlen
        omega
      rw [ihV x (printSepElems xs ++ ']' :: rest) hgx hbx]
      dsimp only
      cases xs with
      | nil =>
        rw [show printSepElems ([] : List Json) ++ ']' :: rest = ']' :: rest
          from by simp [printSepElems]]
        rw [skipWs_cons _ _ (by decide)]
        dsimp only
        rw [if_neg (by decide : ¬ (']' : Char) = ','), if_pos rfl]
      | cons y ys =>
        have hgy : goodJson y = true ∧ goodElems ys = true := by
          simpa [goodElems, Bool.and_eq_true] using hgxs
        have hsh : printSepElems (y :: ys) ++ ']' :: rest
            = ',' :: (printJson y ++ (printSepElems ys ++ ']' :: rest)) := by
          simp [printSepElems]
        rw [hsh, skipWs_cons _ _ (by decide)]
        dsimp only
        rw [if_pos rfl]
        have hlen2 : (printJson y ++ printSepElems ys).length + 1 ≤ fuel := by
          have h1 := printJson_ne_nil x
          simp only [printSepElems, List.length_append, List.length_cons] at hlen ⊢
          omega
        rw [ihE y ys rest hgy.1 hgy.2 hlen2]
    · intro k v ms rest hk hv hms hlen
      rw [parseMembers_succ]
      have hq : printStrLit k ++ ':' :: (printJson v ++ (printSepMembers ms ++ '\x7d' :: rest))
          = '"' :: (escStr k.data
              ++ ('"' :: (':' :: (printJson v ++ (printSepMembers ms ++ '\x7d' :: rest))))) := by
        simp [printStrLit]
      rw [hq, skipWs_cons _ _ (by decide)]
      dsimp only
      rw [if_pos rfl]
      rw [parseStringBody_escStr k.data _ (by simpa [goodStr] using hk)]
      dsimp only
      rw [skipWs_cons _ _ (by decide)]
      dsimp only
      rw [if_pos rfl]
      have hbv : (printJson v).length ≤ fuel := by
        simp only [printStrLit, List.length_append, List.length_cons] at hlen
        omega
      rw [ihV v (printSepMembers ms ++ '\x7d' :: rest) hv hbv]
      dsimp only
      cases ms with
      | nil =>
        rw [show printSepMembers ([] : List (String × Json)) ++ '\x7d' :: rest
            = '\x7d' :: rest from by simp [printSepMembers]]
        rw [skipWs_cons _ _ (by decide)]
        dsimp only
        rw [if_neg (by decide : ¬ ('\x7d' : Char) = ','), if_pos rfl]
      | cons p ms2 =>
        obtain ⟨k2, v2⟩ := p
        have hgm : goodStr k2 = true ∧ goodJson v2 = true ∧ goodMembers ms2 = true := by
          simpa [goodMembers, Bool.and_eq_true, and_assoc] using hms
        have hsh : printSepMembers ((k2, v2) :: ms2) ++ '\x7d' :: rest
            = ',' :: (printStrLit k2
                ++ ':' :: (printJson v2 ++ (printSepMembers ms2 ++ '\x7d' :: rest))) := by
          simp [printSepMembers]
        rw [hsh, skipWs_cons _ _ (by decide)]
        dsimp only
        rw [if_pos rfl]
        have hlen2 : (printStrLit k2 ++ ':' :: printJson v2 ++ printSepMembers ms2).length + 1
            ≤ fuel := by
          have h1 := printJson_ne_nil v
          simp only [printStrLit, printSepMembers, List.length_append,
            List.length_cons] at hlen ⊢
          omega
        rw [ihM k2 v2 ms2 rest hgm.1 hgm.2.1 hgm.2.2 hlen2]

theorem jsonLoadsL_print (j : Json) (hg : goodJson j = true) :
    jsonLoadsL (printJson j) = some j := by
  unfold jsonLoadsL
  have h := (parse_print_aux ((printJson j).length + 1)).1 j [] hg (by omega)
  rw [List.append_nil] at h
  rw [h]
  rfl

theorem dropWhile_isWs_last (l : List Char) (c : Char) (h : isWs c = false) :
    List.dropWhile isWs (l ++ [c]).reverse = (l ++ [c]).reverse := by
  rw [List.reverse_append]
  exact dropWhile_isWs_cons _ _ h

theorem trimL_of_ends (c d : Char) (mid : List Char)
    (hc : isWs c = false) (hd : isWs d = false) :
    trimL (c :: (mid ++ [d])) = c :: (mid ++ [d]) := by
  unfold trimL
  rw [dropWhile_isWs_cons _ _ hc]
  rw [show c :: (mid ++ [d]) = (c :: mid) ++ [d] from by simp]
  rw [dropWhile_isWs_last _ _ hd, List.reverse_reverse]

theorem extractBraces_wrap (mid : List Char) :
    extractBracesL ('\x7b' :: (mid ++ ['\x7d']))
      = some ('\x7b' :: (mid ++ ['\x7d'])) := by
  have h1 : List.dropWhile (fun c => !(c == '\x7b')) ('\x7b' :: (mid ++ ['\x7d']))
      = '\x7b' :: (mid ++ ['\x7d']) := by
    simp [List.dropWhile_cons]
  have h2 : ('\x7b' :: (mid ++ ['\x7d'])).reverse
      = '\x7d' :: (mid.reverse ++ ['\x7b']) := by simp
  have h3 : List.dropWhile (fun c => !(c == '\x7d')) ('\x7d' :: (mid.reverse ++ ['\x7b']))
      = '\x7d' :: (mid.reverse ++ ['\x7b']) := by
    simp [List.dropWhile_cons]
  have h4 : ('\x7d' :: (mid.reverse ++ ['\x7b'])).reverse
      = '\x7b' :: (mid ++ ['\x7d']) := by simp
  unfold extractBracesL
  dsimp only
  rw [h1, h2, h3, h4]
  rfl

theorem printJson_obj_shape (ms : List (String × Json)) :
    ∃ mid, printJson (Json.obj ms) = '\x7b' :: (mid ++ ['\x7d']) := by
  cases ms with
  | nil => exact ⟨[], rfl⟩
  | cons p ms =>
    obtain ⟨k, v⟩ := p
    exact ⟨printStrLit k ++ ':' :: printJson v ++ printSepMembers ms, by
      simp [printJson]⟩

theorem stripFences_wrap (mid : List Char) :
    stripFencesL ('\x60' :: '\x60' :: '\x60' :: 'j' :: 's' :: 'o' :: 'n' :: '\n' ::
        (('\x7b' :: (mid ++ ['\x7d'])) ++ '\n' :: '\x60' :: '\x60' :: '\x60' :: []))
      = '\x7b' :: (mid ++ ['\x7d']) := by
  have e1 : trimL ('\x60' :: '\x60' :: '\x60' :: 'j' :: 's' :: 'o' :: 'n' :: '\n' ::
        (('\x7b' :: (mid ++ ['\x7d'])) ++ '\n' :: '\x60' :: '\x60' :: '\x60' :: []))
      = '\x60' :: '\x60' :: '\x60' :: 'j' :: 's' :: 'o' :: 'n' :: '\n' ::
        (('\x7b' :: (mid ++ ['\x7d'])) ++ '\n' :: '\x60' :: '\x60' :: '\x60' :: []) := by
    rw [show '\x60' :: '\x60' :: '\x60' :: 'j' :: 's' :: 'o' :: 'n' :: '\n' ::
          (('\x7b' :: (mid ++ ['\x7d'])) ++ '\n' :: '\x60' :: '\x60' :: '\x60' :: [])
        = '\x60' :: (('\x60' :: '\x60' :: 'j' :: 's' :: 'o' :: 'n' :: '\n' ::
          (('\x7b' :: (mid ++ ['\x7d'])) ++ '\n' :: '\x60' :: '\x60' :: []))
            ++ ['\x60']) from by simp]
    rw [trimL_of_ends _ _ _ (by decide) (by decide)]
  have e2 : dropFencePrefix ('\x60' :: '\x60' :: '\x60' :: 'j' :: 's' :: 'o' :: 'n' :: '\n' ::
        (('\x7b' :: (mid ++ ['\x7d'])) ++ '\n' :: '\x60' :: '\x60' :: '\x60' :: []))
      = '\n' :: (('\x7b' :: (mid ++ ['\x7d'])) ++ '\n' :: '\x60' :: '\x60' :: '\x60' :: []) := rfl
  have hrev : ('\n' :: (('\x7b' :: (mid ++ ['\x7d'])) ++ '\n' :: '\x60' :: '\x60' :: '\x60' :: [])).reverse
      = '\x60' :: '\x60' :: '\x60' :: '\n' ::
          (('\x7d' :: mid.reverse ++ ['\x7b']) ++ ['\n']) := by
    simp
  have e3 : dropFenceSuffix ('\n' :: (('\x7b' :: (mid ++ ['\x7d'])) ++ '\n' :: '\x60' :: '\x60' :: '\x60' :: []))
      = '\n' :: (('\x7b' :: (mid ++ ['\x7d'])) ++ ['\n']) := by
    unfold dropFenceSuffix
    rw [hrev]
    split
    · simp
    · next hcon => exact absurd rfl hcon
  have e4 : trimL ('\n' :: (('\x7b' :: (mid ++ ['\x7d'])) ++ ['\n']))
      = '\x7b' :: (mid ++ ['\x7d']) := by
    unfold trimL
    have d1 : List.dropWhile isWs ('\n' :: (('\x7b' :: (mid ++ ['\x7d'])) ++ ['\n']))
        = '\x7b' :: ((mid ++ ['\x7d']) ++ ['\n']) := by
      rw [List.dropWhile_cons, if_pos (by decide)]
      rw [show ('\x7b' :: (mid ++ ['\x7d'])) ++ ['\n']
          = '\x7b' :: ((mid ++ ['\x7d']) ++ ['\n']) from by simp]
      exact dropWhile_isWs_cons '\x7b' _ (by decide)
    rw [d1]
    have d2 : ('\x7b' :: ((mid ++ ['\x7d']) ++ ['\n'])).reverse
        = '\n' :: ('\x7d' :: (mid.reverse ++ ['\x7b'])) := by
      simp
    rw [d2]
    rw [List.dropWhile_cons, if_pos (by decide)]
    rw [dropWhile_isWs_cons '\x7d' (mid.reverse ++ ['\x7b']) (by decide)]
    simp
  unfold stripFencesL
  rw [e1, e2, e3, e4]

theorem parse_json_safe_roundtrip (kvs : List (String × Json))
    (hgood : goodMembers kvs = true)
    (hnodup : (kvs.map Prod.fst).Nodup)
    (ht : containsKey kvs "title" = true)
    (hsub : containsKey kvs "subtitle" = true)
    (hbody : containsKey kvs "body" = true)
    (hcat : containsKey kvs "category" = true)
    (htags : containsKey kvs "tags" = true) :
    parse_json_safe ("```json\n" ++ String.mk (printJson (Json.obj kvs)) ++ "\n```")
      = kvs := by
  obtain ⟨mid, hmid⟩ := printJson_obj_shape kvs
  have hdata : ("```json\n" ++ String.mk (printJson (Json.obj kvs)) ++ "\n```").data
      = '\x60' :: '\x60' :: '\x60' :: 'j' :: 's' :: 'o' :: 'n' :: '\n' ::
        ((printJson (Json.obj kvs)) ++ '\n' :: '\x60' :: '\x60' :: '\x60' :: []) := by
    rw [strData_append, strData_append]
    rw [show ("```json\n" : String).data
        = ['\x60', '\x60', '\x60', 'j', 's', 'o', 'n', '\n'] from rfl]
    rw [show ("\n```" : String).data = ['\n', '\x60', '\x60', '\x60'] from rfl]
    rw [show (String.mk (printJson (Json.obj kvs))).data
        = printJson (Json.obj kvs) from rfl]
    simp
  unfold parse_json_safe
  dsimp only
  rw [hdata, hmid, stripFences_wrap, extractBraces_wrap]
  dsimp only
  rw [← hmid, jsonLoadsL_print _ (show goodJson (Json.obj kvs) = true from hgood)]
  dsimp only
  rw [setdefaultJ_of_contains _ _ _ hcat, setdefaultJ_of_contains _ _ _ htags,
    setdefaultJ_of_contains _ _ _ ht, setdefaultJ_of_contains _ _ _ hsub,
    setdefaultJ_of_contains _ _ _ hbody]

theorem parse_json_safe_roundtrip_witness :
    parse_json_safe ("```json\n" ++ String.mk (printJson (Json.obj cardKvs)) ++ "\n```")
      = cardKvs :=
  parse_json_safe_roundtrip cardKvs (by decide) (by decide) (by decide)
    (by decide) (by decide) (by decide) (by decide)
